import Mathlib

/-!
Shallow embedding of the exercise-tracker backend (src/index.js and
src/models/exercise.js): the input-validation middlewares
(parseUsername, parseExerciseInput, parseLogsInput), the query-predicate
construction of the logs handler, the log formatter, and the four
endpoint handlers, each modelled as a pure function from the request
input and the store contents to a response together with the list of
store operations the handler performs.

Machine-level collaborators of the code that are not part of the
repository (the ECMAScript built-ins parseInt, Date.parse and
Date.prototype.toDateString, and the document store) are modelled
explicitly below, restricted to the input forms this API documents.
-/

namespace ExerciseTracker

/-- Decidable equality on Except results, used to evaluate the
embedded validators on concrete inputs. -/
instance {ε α : Type} [DecidableEq ε] [DecidableEq α] :
    DecidableEq (Except ε α) := fun a b =>
  match a, b with
  | .ok x, .ok y =>
    if h : x = y then isTrue (by rw [h])
    else isFalse (by intro hc; cases hc; exact h rfl)
  | .error x, .error y =>
    if h : x = y then isTrue (by rw [h])
    else isFalse (by intro hc; cases hc; exact h rfl)
  | .ok _, .error _ => isFalse (by intro hc; cases hc)
  | .error _, .ok _ => isFalse (by intro hc; cases hc)

/-- Value of a request-body field or path parameter as delivered by the
urlencoded body parser: absent (undefined), a string, or an array of
strings (repeated keys). -/
inductive JSVal where
  | undefined
  | str (s : String)
  | arr (l : List String)
deriving DecidableEq, Repr

/-- JavaScript truthiness of such a value: undefined and the empty
string are falsy, every other string and every array is truthy. -/
def JSVal.truthy : JSVal → Bool
  | .undefined => false
  | .str s => s ≠ ""
  | .arr _ => true

/-- Whitespace removed by String.prototype.trim and skipped by the
parseInt built-in (main forms). -/
def isJsSpace (c : Char) : Bool :=
  c = ' ' || c = '\t' || c = '\n' || c = '\r'

/-- Models the ECMAScript String.prototype.trim built-in: drop leading
and trailing whitespace. -/
def jsTrim (s : String) : String :=
  ⟨((s.toList.dropWhile isJsSpace).reverse.dropWhile isJsSpace).reverse⟩

/-- Embeds parseString from src/index.js: reject non-strings, trim,
reject the value when it trims to the empty string. -/
def parseString : JSVal → Except String String
  | .str s =>
    let t := jsTrim s
    if t = "" then .error "Input value is empty character string"
    else .ok t
  | _ => .error "Input value is not string"

/-- Character is a hexadecimal digit. -/
def isHexChar (c : Char) : Bool :=
  c.isDigit || ('a' ≤ c && c ≤ 'f') || ('A' ≤ c && c ≤ 'F')

/-- Models mongoose.Types.ObjectId.isValid on strings: a 24-character
hexadecimal string, or any 12-character string (12-byte form). -/
def isValidObjectId (s : String) : Bool :=
  (s.length = 24 && s.toList.all isHexChar) || s.length = 12

/-- Embeds parseId from src/index.js. -/
def parseId (s : String) : Except String String :=
  if isValidObjectId s then .ok s
  else .error ("Invalid ID: " ++ s)

/-- Composition parseId(parseString(v)) used for the _id path parameter
in both parseExerciseInput and parseLogsInput. -/
def parseIdVal (v : JSVal) : Except String String := do
  let s ← parseString v
  parseId s

/-- Numeric value of a decimal digit character. -/
def digitVal (c : Char) : Nat := c.toNat - 48

/-- Natural number denoted by a list of decimal digit characters. -/
def digitsToNat (l : List Char) : Nat :=
  l.foldl (fun a c => a * 10 + digitVal c) 0

/-- Models the ECMAScript parseInt built-in with no radix argument on
its radix-10 forms: skip leading whitespace, an optional sign, then the
longest prefix of decimal digits; none models NaN (no digits). The
automatic hexadecimal detection of a 0x prefix is not modelled. -/
def jsParseInt (s : String) : Option Int :=
  let cs := s.toList.dropWhile isJsSpace
  let signAndRest : Int × List Char :=
    match cs with
    | '-' :: rest => (-1, rest)
    | '+' :: rest => (1, rest)
    | _ => (1, cs)
  let ds := signAndRest.2.takeWhile Char.isDigit
  if ds.isEmpty then none
  else some (signAndRest.1 * (digitsToNat ds : Nat))

/-- Proleptic Gregorian leap year. -/
def isLeapYear (y : Int) : Bool :=
  (y % 4 = 0 && y % 100 ≠ 0) || y % 400 = 0

/-- Number of days in a month of a given year. -/
def daysInMonth (y : Int) (m : Nat) : Nat :=
  if m = 2 then (if isLeapYear y then 29 else 28)
  else if m = 4 || m = 6 || m = 9 || m = 11 then 30
  else 31

/-- Days since the Unix epoch of a civil date (standard civil-calendar
conversion; all intermediate quantities the divisions act on are
nonnegative). -/
def daysFromCivil (y : Int) (m d : Nat) : Int :=
  let yAdj : Int := if m ≤ 2 then y - 1 else y
  let era : Int := (if 0 ≤ yAdj then yAdj else yAdj - 399) / 400
  let yoe : Int := yAdj - era * 400
  let mp : Int := if 2 < m then (m : Int) - 3 else (m : Int) + 9
  let doy : Int := (153 * mp + 2) / 5 + (d : Int) - 1
  let doe : Int := yoe * 365 + yoe / 4 - yoe / 100 + doy
  era * 146097 + doe - 719468

/-- Civil date (year, month, day) of a count of days since the Unix
epoch; inverse of daysFromCivil. -/
def civilFromDays (z : Int) : Int × Nat × Nat :=
  let z2 := z + 719468
  let era : Int := (if 0 ≤ z2 then z2 else z2 - 146096) / 146097
  let doe : Int := z2 - era * 146097
  let yoe : Int := (doe - doe / 1460 + doe / 36524 - doe / 146096) / 365
  let y : Int := yoe + era * 400
  let doy : Int := doe - (365 * yoe + yoe / 4 - yoe / 100)
  let mp : Int := (5 * doy + 2) / 153
  let d : Int := doy - (153 * mp + 2) / 5 + 1
  let m : Int := if mp < 10 then mp + 3 else mp - 9
  (if m ≤ 2 then y + 1 else y, m.toNat, d.toNat)

/-- Models the ECMAScript Date.parse built-in restricted to the
calendar-date form YYYY-MM-DD of the Date Time String Format, the form
this API documents for its date parameters. The result is milliseconds
since the Unix epoch; none models NaN, in particular on the empty
string and on out-of-range month or day components. -/
def dateParse (s : String) : Option Int :=
  match s.toList with
  | [y1, y2, y3, y4, sep1, m1, m2, sep2, d1, d2] =>
    if sep1 = '-' && sep2 = '-'
        && [y1, y2, y3, y4, m1, m2, d1, d2].all Char.isDigit then
      let y : Int := (digitsToNat [y1, y2, y3, y4] : Nat)
      let m := digitsToNat [m1, m2]
      let d := digitsToNat [d1, d2]
      if 1 ≤ m && m ≤ 12 && 1 ≤ d && d ≤ daysInMonth y m then
        some (daysFromCivil y m d * 86400000)
      else none
    else none
  | _ => none

/-- Three-letter weekday names, Sunday first. -/
def weekdayNames : List String :=
  ["Sun", "Mon", "Tue", "Wed", "Thu", "Fri", "Sat"]

/-- Three-letter month names. -/
def monthNames : List String :=
  ["Jan", "Feb", "Mar", "Apr", "May", "Jun",
   "Jul", "Aug", "Sep", "Oct", "Nov", "Dec"]

/-- Two-digit zero-padded rendering of a day of month. -/
def pad2 (n : Nat) : String :=
  if n < 10 then "0" ++ toString n else toString n

/-- Models the ECMAScript Date.prototype.toDateString built-in, the
"Weekday Month Day Year" rendering, for a timestamp in milliseconds
since the Unix epoch; the server timezone is modelled as UTC. The Unix
epoch day is a Thursday. -/
def toDateString (t : Int) : String :=
  let z := t.ediv 86400000
  let c := civilFromDays z
  let w := ((z + 4).emod 7).toNat
  (weekdayNames.getD w "") ++ " " ++ (monthNames.getD (c.2.1 - 1) "")
    ++ " " ++ pad2 c.2.2 ++ " " ++ toString c.1

/-- Comparison a > b on possibly-NaN JavaScript numbers (none models
NaN): any comparison with NaN is false. -/
def optGT : Option Int → Option Int → Bool
  | some a, some b => b < a
  | _, _ => false

/-- JavaScript truthiness of a query-parameter string: undefined and
the empty string are falsy. -/
def strTruthy : Option String → Bool
  | none => false
  | some s => s ≠ ""

/-- JavaScript truthiness of a numeric query field written back by the
middleware: undefined and 0 are falsy. -/
def numTruthy : Option Int → Bool
  | none => false
  | some v => v ≠ 0

/-- Error message of the date-format failures in src/index.js. -/
def invalidDateMsg : String :=
  "Invalid Date Format. See @ https://tc39.es/ecma262/#sec-date-time-string-format"

/-- Error message of the from-after-to failure in parseLogsInput. -/
def fromAfterToMsg : String :=
  "\x27from\x27 cannot be later than \x27to\x27"

/-- Validated from/to/limit filters produced by parseLogsInput; none
models an absent (or falsy) value written back to req.query. -/
structure LogsFilters where
  fromTs : Option Int
  toTs : Option Int
  limitN : Option Int
deriving DecidableEq, Repr

/-- Embeds the from/to/limit portion of parseLogsInput from
src/index.js (the straight-line code after the _id try/catch): compute
Date.parse of from and to and parseInt of limit, reject a present but
non-numeric limit, reject a parsed limit above MAX_LIMIT (50),
otherwise substitute DEFAULT_LIMIT (20) for a nonpositive parsed limit;
reject when Date.parse(from) > Date.parse(to) (false whenever either is
NaN), then reject a present from or to whose parse is NaN; finally
write back from and to through the JavaScript truthiness conjunction
(from = from && parsedFrom). -/
def parseLogsFilters (fromQ toQ limitQ : Option String) :
    Except (Nat × String) LogsFilters :=
  let parsedFrom := fromQ.bind dateParse
  let parsedTo := toQ.bind dateParse
  let parsedLimit := limitQ.bind jsParseInt
  if limitQ.isSome && parsedLimit.isNone then
    .error (400, "Invalid limit: " ++ limitQ.getD "")
  else if optGT parsedLimit (some 50) then
    .error (400, "limit cannot exceed 50")
  else
    let limitV : Option Int :=
      if strTruthy limitQ then
        some (if optGT parsedLimit (some 0) then parsedLimit.getD 0 else 20)
      else none
    if optGT parsedFrom parsedTo then
      .error (400, fromAfterToMsg)
    else if (fromQ.isSome && parsedFrom.isNone)
        || (toQ.isSome && parsedTo.isNone) then
      .error (400, invalidDateMsg)
    else
      .ok ⟨(if strTruthy fromQ then parsedFrom else none),
           (if strTruthy toQ then parsedTo else none),
           limitV⟩

/-- Output of the parseLogsInput middleware: the validated _id together
with the validated query filters. -/
structure ParsedLogs where
  _id : String
  fromTs : Option Int
  toTs : Option Int
  limitN : Option Int
deriving DecidableEq, Repr

/-- Embeds the parseLogsInput middleware of src/index.js: the _id
try/catch first (its failure is a 400 with the underlying message),
then the filter validation. -/
def parseLogsInput (idP : JSVal) (fromQ toQ limitQ : Option String) :
    Except (Nat × String) ParsedLogs :=
  match parseIdVal idP with
  | .error m => .error (400, m)
  | .ok idv =>
    (parseLogsFilters fromQ toQ limitQ).map
      (fun f => ⟨idv, f.fromTs, f.toTs, f.limitN⟩)

/-- Value held in req.body.date after the parseExerciseInput middleware
ran: the original undefined or string value, or a constructed Date
object (timestamp in milliseconds). -/
inductive BodyVal where
  | undefined
  | str (s : String)
  | dateObj (t : Int)
deriving DecidableEq, Repr

/-- Output of the parseExerciseInput middleware. -/
structure ParsedExercise where
  _id : String
  description : String
  duration : Int
  date : BodyVal
deriving DecidableEq, Repr

/-- Embeds the date portion of parseExerciseInput: only when the raw
date value is truthy is it parsed as a string and through Date.parse
into a Date object; a falsy date (undefined or the empty string) is
left as it is. -/
def parseDateField (dateP : JSVal) : Except String BodyVal :=
  if dateP.truthy then
    match parseString dateP with
    | .error m => .error m
    | .ok ds =>
      match dateParse ds with
      | none => .error invalidDateMsg
      | some t => .ok (.dateObj t)
  else
    .ok (match dateP with
      | .str s => .str s
      | _ => .undefined)

/-- Embeds the parseExerciseInput middleware of src/index.js: validate
the _id, the description, the duration (parseString then parseInt,
rejecting NaN), and the date field. -/
def parseExerciseInput (idP descP durP dateP : JSVal) :
    Except String ParsedExercise := do
  let idS ← parseString idP
  let idv ← parseId idS
  let description ← parseString descP
  let durS ← parseString durP
  let duration ←
    match jsParseInt durS with
    | none => Except.error "duration is not a valid number"
    | some n => Except.ok n
  let date ← parseDateField dateP
  Except.ok ⟨idv, description, duration, date⟩

/-- Stored user document (src/models/user.js is required by index.js;
only the username and _id fields are read by the handlers). -/
structure UserRec where
  _id : String
  username : String
deriving DecidableEq, Repr

/-- Stored exercise document, after src/models/exercise.js: userId,
description, duration, and a date held as a point in time (milliseconds
since the Unix epoch). -/
structure ExerciseRec where
  userId : String
  description : String
  duration : Int
  date : Int
deriving DecidableEq, Repr

/-- Contents of the document store. -/
structure Store where
  users : List UserRec
  exercises : List ExerciseRec
deriving DecidableEq, Repr

/-- Date-range part of the find query the logs handler builds: an
optional $gte bound and an optional $lte bound on the date field. -/
structure FindQuery where
  userId : String
  gte : Option Int
  lte : Option Int
deriving DecidableEq, Repr

/-- Store semantics of such a query: userId equality plus the inclusive
range operators $gte and $lte on the date. -/
def matchesQuery (q : FindQuery) (e : ExerciseRec) : Bool :=
  e.userId = q.userId
    && (match q.gte with | some f => f ≤ e.date | none => true)
    && (match q.lte with | some t => e.date ≤ t | none => true)

/-- Embeds the findQuery construction of the GET /api/users/:_id/logs
handler (src/index.js): the four-way if/else on the JavaScript
truthiness of the from and to values written back by the middleware. -/
def buildFindQuery (idv : String) (fromV toV : Option Int) : FindQuery :=
  if numTruthy fromV && numTruthy toV then ⟨idv, fromV, toV⟩
  else if numTruthy fromV then ⟨idv, fromV, none⟩
  else if numTruthy toV then ⟨idv, none, toV⟩
  else ⟨idv, none, none⟩

/-- Insertion step of the descending-by-date sort. -/
def insertByDateDesc (e : ExerciseRec) :
    List ExerciseRec → List ExerciseRec
  | [] => [e]
  | x :: xs =>
    if x.date < e.date then e :: x :: xs
    else x :: insertByDateDesc e xs

/-- Store semantics of .sort with date descending. -/
def sortByDateDesc : List ExerciseRec → List ExerciseRec
  | [] => []
  | x :: xs => insertByDateDesc x (sortByDateDesc xs)

/-- Store semantics of .limit: no cap when the limit value is absent
(undefined), otherwise keep at most that many documents. -/
def jsLimit (n : Option Int) (l : List ExerciseRec) : List ExerciseRec :=
  match n with
  | none => l
  | some v => l.take v.toNat

/-- Wire shape of one entry of the log array: description, duration and
the rendered date string; the select excludes _id, so no identifier
field exists in an entry. -/
structure LogEntry where
  description : String
  duration : Int
  date : String
deriving DecidableEq, Repr

/-- Embeds the log mapping step of the logs handler: each selected
document keeps description and duration and has its date replaced by
its toDateString rendering. -/
def formatLogEntry (e : ExerciseRec) : LogEntry :=
  ⟨e.description, e.duration, toDateString e.date⟩

/-- Body of an HTTP response of one of the four endpoints. -/
inductive RespBody where
  | msg (m : String)
  | userOut (username : String) (_id : String)
  | usersOut (l : List (String × String))
  | exerciseOut (username description : String) (duration : Int)
      (date : String) (_id : String)
  | logsOut (username : String) (count : Nat) (_id : String)
      (log : List LogEntry)
deriving DecidableEq, Repr

/-- HTTP response: status code and body. -/
structure Resp where
  status : Nat
  body : RespBody
deriving DecidableEq, Repr

/-- Operation performed against the document store by a handler. -/
inductive StoreOp where
  | userSave (u : UserRec)
  | userFindAll
  | userFindById (idv : String)
  | exSave (e : ExerciseRec)
  | exFind (q : FindQuery) (limitN : Option Int)
deriving DecidableEq, Repr

/-- Store semantics of UserModel.findById. -/
def findUser (store : Store) (idv : String) : Option UserRec :=
  store.users.find? (fun u => u._id = idv)

/-- Embeds the POST /api/users endpoint: the parseUsername middleware
(parseString on the username, 400 on failure) followed by the handler,
which saves the new user and answers with username and the
store-generated _id (modelled by the freshId argument). The 500
store-failure path is outside the model: the store here always
succeeds. -/
def createUser (freshId : String) (usernameP : JSVal) :
    Resp × List StoreOp :=
  match parseString usernameP with
  | .error m => (⟨400, .msg m⟩, [])
  | .ok username =>
    (⟨200, .userOut username freshId⟩, [.userSave ⟨freshId, username⟩])

/-- Embeds the GET /api/users endpoint: fetch all users projected to
username and _id; an empty list is answered with a 404, a nonempty one
with a 200 carrying the list. -/
def listUsers (store : Store) : Resp × List StoreOp :=
  let users := store.users.map (fun u => (u.username, u._id))
  if users.length = 0 then
    (⟨404, .msg "No users found in the database"⟩, [.userFindAll])
  else
    (⟨200, .usersOut users⟩, [.userFindAll])

/-- Branch taken by the exercise handler on the date value left by the
middleware, in the order of src/index.js: a Date instance first, then
the empty string or undefined, otherwise the unrecognized-data 400. -/
inductive DateBranch where
  | withDate (t : Int)
  | noDate
  | unrecognized
deriving DecidableEq, Repr

/-- The date classification of the exercise handler. -/
def dateBranch : BodyVal → DateBranch
  | .dateObj t => .withDate t
  | .str s => if s = "" then .noDate else .unrecognized
  | .undefined => .noDate

/-- Embeds the POST /api/users/:_id/exercises endpoint: the
parseExerciseInput middleware (400 on failure, before any store
access), then the user lookup (404 when absent), then the date branch:
a Date yields an exercise dated with it, a falsy date yields an
exercise dated Date.now (the now argument), anything else the
unrecognized-data 400; the saved document is echoed back with the date
rendered through the dateString virtual of src/models/exercise.js. The
500 store-failure paths are outside the model. -/
def createExercise (store : Store) (now : Int)
    (idP descP durP dateP : JSVal) : Resp × List StoreOp :=
  match parseExerciseInput idP descP durP dateP with
  | .error m => (⟨400, .msg m⟩, [])
  | .ok pe =>
    match findUser store pe._id with
    | none =>
      (⟨404, .msg ("No user found with _id: " ++ pe._id)⟩,
       [.userFindById pe._id])
    | some u =>
      match dateBranch pe.date with
      | .unrecognized =>
        (⟨400, .msg "Unrecognized date data content"⟩,
         [.userFindById pe._id])
      | .withDate t =>
        let e : ExerciseRec := ⟨pe._id, pe.description, pe.duration, t⟩
        (⟨200, .exerciseOut u.username e.description e.duration
            (toDateString e.date) u._id⟩,
         [.userFindById pe._id, .exSave e])
      | .noDate =>
        let e : ExerciseRec := ⟨pe._id, pe.description, pe.duration, now⟩
        (⟨200, .exerciseOut u.username e.description e.duration
            (toDateString e.date) u._id⟩,
         [.userFindById pe._id, .exSave e])

/-- Criteria part of the empty-result 404 message of the logs handler,
built alongside the find query with the same truthiness tests. -/
def criteriaMessage (p : ParsedLogs) : String :=
  let base := "No exercises found with criteria - ID: " ++ p._id
  let fromStr := toDateString (p.fromTs.getD 0)
  let toStr := toDateString (p.toTs.getD 0)
  let base :=
    if numTruthy p.fromTs && numTruthy p.toTs then
      base ++ " - from: " ++ fromStr ++ " - to: " ++ toStr
    else if numTruthy p.fromTs then base ++ " - from: " ++ fromStr
    else if numTruthy p.toTs then base ++ " - to: " ++ toStr
    else base
  if numTruthy p.limitN then
    base ++ " - limit: " ++ toString (p.limitN.getD 0)
  else base

/-- Embeds the GET /api/users/:_id/logs endpoint: the parseLogsInput
middleware (400 on failure, before any store access), the user lookup
(404 when absent), the find query built from the validated filters, the
store find with descending date sort and optional limit, the
empty-result 404, and otherwise the 200 with the formatted log and its
count. The 500 store-failure paths are outside the model. -/
def getLogs (store : Store) (idP : JSVal)
    (fromQ toQ limitQ : Option String) : Resp × List StoreOp :=
  match parseLogsInput idP fromQ toQ limitQ with
  | .error e => (⟨e.1, .msg e.2⟩, [])
  | .ok p =>
    match findUser store p._id with
    | none =>
      (⟨404, .msg ("No user found with ID: " ++ p._id)⟩,
       [.userFindById p._id])
    | some u =>
      let q := buildFindQuery p._id p.fromTs p.toTs
      let found :=
        jsLimit p.limitN
          (sortByDateDesc (store.exercises.filter (matchesQuery q)))
      let ops := [StoreOp.userFindById p._id, StoreOp.exFind q p.limitN]
      if found.isEmpty then
        (⟨404, .msg (criteriaMessage p)⟩, ops)
      else
        let log := found.map formatLogEntry
        (⟨200, .logsOut u.username log.length p._id log⟩, ops)

/-- The limit parameter passes the two limit checks of parseLogsInput:
it is absent, or parses to an integer of at most 50. -/
def limitOk : Option String → Prop
  | none => True
  | some s => ∃ n, jsParseInt s = some n ∧ n ≤ 50

/-- A well-formed ObjectId string used in concrete instantiations. -/
def gidStr : String := "aaaaaaaaaaaaaaaaaaaaaaaa"

/-- A small store used in concrete instantiations: one user owning one
exercise dated 2024-01-02. -/
def sampleStore : Store :=
  ⟨[⟨gidStr, "bob"⟩], [⟨gidStr, "swim", 45, 1704153600000⟩]⟩

lemma optGT_some_some (a b : Int) : optGT (some a) (some b) = decide (b < a) :=
  rfl

lemma optGT_none_left (x : Option Int) : optGT none x = false := by
  cases x <;> rfl

lemma optGT_none_right (x : Option Int) : optGT x none = false := by
  cases x <;> rfl

lemma dateParse_empty : dateParse "" = none := rfl

lemma jsParseInt_ne_empty {s : String} {n : Int}
    (h : jsParseInt s = some n) : s ≠ "" := by
  intro he
  rw [he, show jsParseInt "" = none from rfl] at h
  cases h

/-- Both limit guards of parseLogsFilters are passed under limitOk. -/
lemma limit_guards_false {limitQ : Option String} (hlim : limitOk limitQ) :
    (limitQ.isSome && (limitQ.bind jsParseInt).isNone) = false
    ∧ optGT (limitQ.bind jsParseInt) (some 50) = false := by
  cases limitQ with
  | none => exact ⟨rfl, rfl⟩
  | some s =>
    obtain ⟨n, hn, hle⟩ := hlim
    refine ⟨?_, ?_⟩
    · simp [Option.bind, hn]
    · simp only [Option.bind, hn, optGT]
      simpa using not_lt.mpr hle

lemma parseString_str_ok {s t : String}
    (h : parseString (.str s) = .ok t) : t = jsTrim s ∧ jsTrim s ≠ "" := by
  unfold parseString at h
  by_cases he : jsTrim s = ""
  · simp [he] at h
  · simp only [he, if_false, reduceIte] at h
    cases h
    exact ⟨rfl, he⟩

lemma mem_insertByDateDesc {x e : ExerciseRec} {l : List ExerciseRec}
    (h : x ∈ insertByDateDesc e l) : x = e ∨ x ∈ l := by
  induction l with
  | nil =>
    unfold insertByDateDesc at h
    exact Or.inl (List.mem_singleton.mp h)
  | cons y ys ih =>
    unfold insertByDateDesc at h
    split at h
    · simpa using h
    · rcases List.mem_cons.mp h with h1 | h1
      · exact Or.inr (List.mem_cons.mpr (Or.inl h1))
      · rcases ih h1 with h2 | h2
        · exact Or.inl h2
        · exact Or.inr (List.mem_cons.mpr (Or.inr h2))

lemma mem_sortByDateDesc {x : ExerciseRec} {l : List ExerciseRec}
    (h : x ∈ sortByDateDesc l) : x ∈ l := by
  induction l with
  | nil =>
    unfold sortByDateDesc at h
    exact h
  | cons y ys ih =>
    unfold sortByDateDesc at h
    rcases mem_insertByDateDesc h with h1 | h1
    · exact h1 ▸ List.mem_cons_self y ys
    · exact List.mem_cons.mpr (Or.inr (ih h1))

lemma length_pos_of_not_isEmpty {α : Type} {l : List α}
    (h : ¬l.isEmpty = true) : 1 ≤ l.length := by
  cases l with
  | nil => exact absurd rfl h
  | cons x xs => exact Nat.succ_le_succ (Nat.zero_le _)

lemma mem_jsLimit {x : ExerciseRec} {n : Option Int} {l : List ExerciseRec}
    (h : x ∈ jsLimit n l) : x ∈ l := by
  cases n with
  | none => exact h
  | some v => exact List.take_subset _ _ h

/-- The value produced by parseDateField is a Date object, the empty
string, or undefined. -/
lemma parseDateField_shape {dateP : JSVal} {d : BodyVal}
    (h : parseDateField dateP = .ok d) :
    d = .undefined ∨ d = .str "" ∨ ∃ t, d = .dateObj t := by
  unfold parseDateField at h
  by_cases ht : dateP.truthy
  · rw [if_pos ht] at h
    split at h
    · cases h
    · split at h
      · cases h
      · cases h
        exact Or.inr (Or.inr ⟨_, rfl⟩)
  · rw [if_neg ht] at h
    cases h
    cases dateP with
    | undefined => exact Or.inl rfl
    | arr l => exact absurd rfl ht
    | str s =>
      have hs : s = "" := by
        by_contra hne
        exact ht (by simp [JSVal.truthy, hne])
      exact Or.inr (Or.inl (by rw [hs]))

/-- The date field written back by parseExerciseInput is a Date object,
the empty string, or undefined. -/
lemma parseExerciseInput_date_shape {idP descP durP dateP : JSVal}
    {pe : ParsedExercise}
    (h : parseExerciseInput idP descP durP dateP = .ok pe) :
    pe.date = .undefined ∨ pe.date = .str "" ∨ ∃ t, pe.date = .dateObj t := by
  unfold parseExerciseInput at h
  simp only [bind, Except.bind] at h
  split at h
  · cases h
  next idS _ =>
  split at h
  · cases h
  next idv _ =>
  split at h
  · cases h
  next description _ =>
  split at h
  · cases h
  next durS _ =>
  split at h
  · cases h
  next duration _ =>
  split at h
  · cases h
  next dv hdv =>
  cases h
  exact parseDateField_shape hdv

/-- A date value of that shape never takes the unrecognized branch. -/
lemma dateBranch_of_shape {d : BodyVal}
    (h : d = .undefined ∨ d = .str "" ∨ ∃ t, d = .dateObj t) :
    dateBranch d ≠ .unrecognized := by
  rcases h with h1 | h1 | ⟨t, h1⟩ <;> rw [h1] <;> simp [dateBranch]

/-- Shape of a successful parseLogsFilters result: each written-back
value is the truthiness conjunction the middleware assigns. -/
lemma parseLogsFilters_ok_shape {fromQ toQ limitQ : Option String}
    {f : LogsFilters} (h : parseLogsFilters fromQ toQ limitQ = .ok f) :
    f = ⟨(if strTruthy fromQ then fromQ.bind dateParse else none),
         (if strTruthy toQ then toQ.bind dateParse else none),
         (if strTruthy limitQ then
            some (if optGT (limitQ.bind jsParseInt) (some 0)
              then (limitQ.bind jsParseInt).getD 0 else 20)
          else none)⟩ := by
  simp only [parseLogsFilters] at h
  split at h
  · cases h
  · split at h
    · cases h
    · split at h
      · cases h
      · split at h
        · cases h
        · cases h
          rfl

/-- Decomposition of a successful parseLogsInput run into its id part
and its filters part. -/
lemma parseLogsInput_ok {idP : JSVal} {fromQ toQ limitQ : Option String}
    {p : ParsedLogs} (h : parseLogsInput idP fromQ toQ limitQ = .ok p) :
    ∃ idv f, parseIdVal idP = .ok idv
      ∧ parseLogsFilters fromQ toQ limitQ = .ok f
      ∧ p = ⟨idv, f.fromTs, f.toTs, f.limitN⟩ := by
  unfold parseLogsInput at h
  split at h
  · cases h
  next idv hidv =>
    cases hf : parseLogsFilters fromQ toQ limitQ with
    | error e =>
      rw [hf] at h
      cases h
    | ok f =>
      rw [hf] at h
      simp only [Except.map] at h
      cases h
      exact ⟨idv, f, hidv, rfl, rfl⟩

/-- C5, counterexample: with no users in the store, the list-users
operation answers 404 with the no-users message, not 200 with an empty
list. -/
theorem listUsers_empty_counterexample :
    (listUsers ⟨[], []⟩).1 = ⟨404, .msg "No users found in the database"⟩
    ∧ (listUsers ⟨[], []⟩).1.status ≠ 200 := by
  decide

/-- C5, amended: an empty user list is answered with a 404 carrying the
no-users message; a 200 with the projected username/_id list is
produced exactly when at least one user exists. -/
theorem listUsers_result (store : Store) :
    (store.users = [] →
      (listUsers store).1 = ⟨404, .msg "No users found in the database"⟩)
    ∧ (store.users ≠ [] →
      (listUsers store).1 =
        ⟨200, .usersOut (store.users.map (fun u => (u.username, u._id)))⟩) := by
  constructor
  · intro he
    simp [listUsers, he]
  · intro hne
    simp [listUsers, List.length_eq_zero, hne]

/-- C5, witness for the amended claim at the empty store. -/
theorem listUsers_result_witness :
    (listUsers ⟨[], []⟩).1 = ⟨404, .msg "No users found in the database"⟩ :=
  (listUsers_result ⟨[], []⟩).1 rfl

/-- C1, counterexample: a logs request with a valid id and a from
parameter that is present but equal to the empty string is rejected
with the 400 date-format error; the empty string is not treated as an
absent parameter. -/
theorem emptyFrom_counterexample :
    parseLogsInput (.str gidStr) (some "") none none
      = .error (400, invalidDateMsg) := by
  decide

/-- C1, amended: a from or to query value that is present but equal to
the empty string behaves like any other unparseable date value, not
like an absent one: provided the id is valid and the limit passes its
checks, the logs-input middleware fails with the 400 date-format
error. -/
theorem emptyDate_rejected (idP : JSVal) (idv : String)
    (limitQ : Option String)
    (hid : parseIdVal idP = .ok idv) (hlim : limitOk limitQ) :
    (∀ toQ, parseLogsInput idP (some "") toQ limitQ
        = .error (400, invalidDateMsg))
    ∧ (∀ fromQ, parseLogsInput idP fromQ (some "") limitQ
        = .error (400, invalidDateMsg)) := by
  obtain ⟨hg1, hg2⟩ := limit_guards_false hlim
  constructor
  · intro toQ
    simp [parseLogsInput, hid, parseLogsFilters, Option.some_bind,
      dateParse_empty, hg1, hg2, optGT_none_left, Except.map]
  · intro fromQ
    simp [parseLogsInput, hid, parseLogsFilters, Option.some_bind,
      dateParse_empty, hg1, hg2, optGT_none_right, Except.map]

/-- C1, witness for the amended claim: an empty to value with a valid
id and no limit. -/
theorem emptyDate_rejected_witness :
    parseLogsInput (.str gidStr) none (some "") none
      = .error (400, invalidDateMsg) :=
  (emptyDate_rejected (.str gidStr) gidStr none (by decide) trivial).2 none

/-- C4: a from parameter of 1970-01-01 is validated successfully and
parses to timestamp 0, yet the handler, which tests the written-back
numeric values for JavaScript truthiness, then builds the unconstrained
query, so the predicate places no lower bound: an exercise dated before
the requested from (here Dec 31 1969) matches the query and is returned
by the logs endpoint. -/
theorem epochFrom_dropsBound :
    parseLogsInput (.str gidStr) (some "1970-01-01") none none
      = .ok ⟨gidStr, some 0, none, none⟩
    ∧ buildFindQuery gidStr (some 0) none = ⟨gidStr, none, none⟩
    ∧ matchesQuery (buildFindQuery gidStr (some 0) none)
        ⟨gidStr, "swim", 45, -86400000⟩ = true
    ∧ (-86400000 : Int) < 0
    ∧ (getLogs ⟨[⟨gidStr, "bob"⟩], [⟨gidStr, "swim", 45, -86400000⟩]⟩
        (.str gidStr) (some "1970-01-01") none none).1
      = ⟨200, .logsOut "bob" 1 gidStr [⟨"swim", 45, "Wed Dec 31 1969"⟩]⟩ := by
  decide

/-- C8, counterexample: a create-exercise request whose duration parses
to 0 passes the middleware and the exercise is persisted with duration
0; it is not rejected. -/
theorem durationZero_accepted :
    parseExerciseInput (.str gidStr) (.str "run") (.str "0") .undefined
      = .ok ⟨gidStr, "run", 0, .undefined⟩
    ∧ createExercise ⟨[⟨gidStr, "bob"⟩], []⟩ 123
        (.str gidStr) (.str "run") (.str "0") .undefined
      = (⟨200, .exerciseOut "bob" "run" 0 "Thu Jan 01 1970" gidStr⟩,
         [.userFindById gidStr, .exSave ⟨gidStr, "run", 0, 123⟩]) := by
  decide

/-- C8, amended: the only duration validation is integer parsing: an
accepted exercise request has a duration equal to the parseInt result
of its trimmed duration string, whatever its sign; zero and negative
values are accepted and persisted unchanged. -/
theorem duration_is_parseInt (idP descP dateP : JSVal) (s : String)
    (pe : ParsedExercise)
    (h : parseExerciseInput idP descP (.str s) dateP = .ok pe) :
    jsParseInt (jsTrim s) = some pe.duration := by
  unfold parseExerciseInput at h
  simp only [bind, Except.bind] at h
  split at h
  · cases h
  next idS _ =>
  split at h
  · cases h
  next idv _ =>
  split at h
  · cases h
  next description _ =>
  split at h
  · cases h
  next durS hdur =>
  split at h
  · cases h
  next duration hn =>
  split at h
  · cases h
  next dv hdv =>
  cases h
  obtain ⟨hts, _⟩ := parseString_str_ok hdur
  rw [← hts]
  exact hn

/-- C8, witness for the amended claim at the negative duration -7. -/
theorem duration_is_parseInt_witness :
    jsParseInt (jsTrim "-7") = some
      ((⟨gidStr, "run", -7, .undefined⟩ : ParsedExercise)).duration :=
  duration_is_parseInt (.str gidStr) (.str "run") .undefined "-7"
    ⟨gidStr, "run", -7, .undefined⟩ (by decide)

/-- C9: whenever the create-exercise middleware succeeds, the date it
wrote back is a Date object, the empty string, or undefined, so the
unrecognized-date 400 branch of the handler is unreachable. -/
theorem middleware_date_shape (idP descP durP dateP : JSVal)
    (pe : ParsedExercise)
    (h : parseExerciseInput idP descP durP dateP = .ok pe) :
    (pe.date = .undefined ∨ pe.date = .str "" ∨ ∃ t, pe.date = .dateObj t)
    ∧ dateBranch pe.date ≠ .unrecognized := by
  have hs := parseExerciseInput_date_shape h
  exact ⟨hs, dateBranch_of_shape hs⟩

/-- C9, witness at a concrete accepted request with a date supplied. -/
theorem middleware_date_shape_witness :
    dateBranch (⟨gidStr, "run", 30, .dateObj 1704153600000⟩ :
      ParsedExercise).date ≠ .unrecognized :=
  (middleware_date_shape (.str gidStr) (.str "run") (.str "30")
    (.str "2024-01-02") ⟨gidStr, "run", 30, .dateObj 1704153600000⟩
    (by decide)).2

/-- C7: on every endpoint, a 400 response is produced with an empty
store-operation trace: validation is completed, and short-circuits,
strictly before any store access (the list-users endpoint performs no
validation and never answers 400). -/
theorem validation_before_store (store : Store) (freshId : String)
    (now : Int) (uP idP descP durP dateP : JSVal)
    (fromQ toQ limitQ : Option String) :
    ((createUser freshId uP).1.status = 400 → (createUser freshId uP).2 = [])
    ∧ (listUsers store).1.status ≠ 400
    ∧ ((createExercise store now idP descP durP dateP).1.status = 400 →
        (createExercise store now idP descP durP dateP).2 = [])
    ∧ ((getLogs store idP fromQ toQ limitQ).1.status = 400 →
        (getLogs store idP fromQ toQ limitQ).2 = []) := by
  refine ⟨?_, ?_, ?_, ?_⟩
  · cases hp : parseString uP <;> simp [createUser, hp]
  · by_cases he : store.users.length = 0 <;> simp [listUsers, he]
  · cases hp : parseExerciseInput idP descP durP dateP with
    | error m => simp [createExercise, hp]
    | ok pe =>
      cases hf : findUser store pe._id with
      | none => simp [createExercise, hp, hf]
      | some u =>
        cases hd : dateBranch pe.date with
        | unrecognized =>
          exact absurd hd
            (dateBranch_of_shape (parseExerciseInput_date_shape hp))
        | withDate t => simp [createExercise, hp, hf, hd]
        | noDate => simp [createExercise, hp, hf, hd]
  · cases hp : parseLogsInput idP fromQ toQ limitQ with
    | error e => simp [getLogs, hp]
    | ok p =>
      cases hf : findUser store p._id with
      | none => simp [getLogs, hp, hf]
      | some u =>
        by_cases he : (jsLimit p.limitN (sortByDateDesc
            (store.exercises.filter (matchesQuery
              (buildFindQuery p._id p.fromTs p.toTs))))).isEmpty
          <;> simp [getLogs, hp, hf, he]

/-- C7, witness: a create-user request with no username fails its
validation with a 400 and performs no store operation. -/
theorem validation_before_store_witness :
    (createUser "id1" .undefined).2 = [] :=
  (validation_before_store ⟨[], []⟩ "id1" 0 .undefined .undefined .undefined .undefined
    .undefined none none none).1 (by decide)

/-- C2: handling of the limit parameter by the logs-input middleware,
for any request with a valid id: an absent limit is written back as
absent and the limit step applies no cap; a present limit that does not
parse as an integer fails 400 with the invalid-limit message; a parsed
value above 50 fails 400 with the limit-cannot-exceed message (so 51 is
rejected); a parsed value of at most 0 is replaced by the default cap
20; any other parsed value up to 50 is used as the cap itself (so 50 is
accepted). -/
theorem limit_handling (idP : JSVal) (idv : String)
    (fromQ toQ limitQ : Option String)
    (hid : parseIdVal idP = .ok idv) :
    (limitQ = none → ∀ p, parseLogsInput idP fromQ toQ limitQ = .ok p →
        p.limitN = none)
    ∧ (∀ l : List ExerciseRec, jsLimit none l = l)
    ∧ (∀ s, limitQ = some s → jsParseInt s = none →
        parseLogsInput idP fromQ toQ limitQ
          = .error (400, "Invalid limit: " ++ s))
    ∧ (∀ s n, limitQ = some s → jsParseInt s = some n → 50 < n →
        parseLogsInput idP fromQ toQ limitQ
          = .error (400, "limit cannot exceed 50"))
    ∧ (∀ s n, limitQ = some s → jsParseInt s = some n → n ≤ 0 →
        ∀ p, parseLogsInput idP fromQ toQ limitQ = .ok p →
          p.limitN = some 20)
    ∧ (∀ s n, limitQ = some s → jsParseInt s = some n → 0 < n → n ≤ 50 →
        ∀ p, parseLogsInput idP fromQ toQ limitQ = .ok p →
          p.limitN = some n) := by
  refine ⟨?_, fun l => rfl, ?_, ?_, ?_, ?_⟩
  · intro hq p hp
    subst hq
    obtain ⟨idv2, f, _, hf, hpe⟩ := parseLogsInput_ok hp
    rw [parseLogsFilters_ok_shape hf] at hpe
    rw [hpe]
    simp [strTruthy]
  · intro s hq hn
    subst hq
    simp [parseLogsInput, hid, parseLogsFilters, hn, Except.map]
  · intro s n hq hn hgt
    subst hq
    simp [parseLogsInput, hid, parseLogsFilters, hn, optGT, hgt, Except.map]
  · intro s n hq hn hle p hp
    subst hq
    obtain ⟨idv2, f, _, hf, hpe⟩ := parseLogsInput_ok hp
    rw [parseLogsFilters_ok_shape hf] at hpe
    rw [hpe]
    have h0 : ¬(0 : Int) < n := not_lt.mpr hle
    simp [strTruthy, jsParseInt_ne_empty hn, hn, optGT, h0]
  · intro s n hq hn h0 hle p hp
    subst hq
    obtain ⟨idv2, f, _, hf, hpe⟩ := parseLogsInput_ok hp
    rw [parseLogsFilters_ok_shape hf] at hpe
    rw [hpe]
    simp [strTruthy, jsParseInt_ne_empty hn, hn, optGT, h0]

/-- C2, witness: with a valid id, limit 51 is rejected with the
limit-cannot-exceed message. -/
theorem limit_handling_witness :
    parseLogsInput (.str gidStr) none none (some "51")
      = .error (400, "limit cannot exceed 50") :=
  ((limit_handling (.str gidStr) gidStr none none (some "51")
    (by decide)).2.2.2.1) "51" 51 rfl (by decide) (by decide)

/-- C3: for a logs request with a valid id, a limit that passes its
checks, and both from and to present, the from-after-to 400 occurs
exactly when both values parse as dates and from is chronologically
later than to; when either value does not parse, the request fails with
the 400 date-format error instead (a different message), never with the
from-after-to error. -/
theorem from_to_ordering (idP : JSVal) (idv : String) (fs ts : String)
    (limitQ : Option String)
    (hid : parseIdVal idP = .ok idv) (hlim : limitOk limitQ) :
    (parseLogsInput idP (some fs) (some ts) limitQ
        = .error (400, fromAfterToMsg)
      ↔ ∃ f t, dateParse fs = some f ∧ dateParse ts = some t ∧ t < f)
    ∧ ((dateParse fs = none ∨ dateParse ts = none) →
      parseLogsInput idP (some fs) (some ts) limitQ
        = .error (400, invalidDateMsg)) := by
  obtain ⟨hg1, hg2⟩ := limit_guards_false hlim
  cases hf : dateParse fs with
  | none =>
    have hc : parseLogsInput idP (some fs) (some ts) limitQ
        = .error (400, invalidDateMsg) := by
      simp [parseLogsInput, hid, parseLogsFilters, hg1, hg2, hf,
        optGT_none_left, Except.map]
    refine ⟨⟨?_, ?_⟩, fun _ => hc⟩
    · intro he
      rw [hc] at he
      exact absurd he (by decide)
    · rintro ⟨f, t, hf2, -, -⟩
      cases hf2
  | some f =>
    cases ht : dateParse ts with
    | none =>
      have hc : parseLogsInput idP (some fs) (some ts) limitQ
          = .error (400, invalidDateMsg) := by
        simp [parseLogsInput, hid, parseLogsFilters, hg1, hg2, hf, ht,
          optGT_none_right, Except.map]
      refine ⟨⟨?_, ?_⟩, fun _ => hc⟩
      · intro he
        rw [hc] at he
        exact absurd he (by decide)
      · rintro ⟨f2, t2, -, ht2, -⟩
        cases ht2
    | some t =>
      refine ⟨⟨?_, ?_⟩, ?_⟩
      · intro he
        by_cases hlt : t < f
        · exact ⟨f, t, rfl, rfl, hlt⟩
        · have hc : parseLogsInput idP (some fs) (some ts) limitQ
              = .ok ⟨idv,
                (if strTruthy (some fs) then some f else none),
                (if strTruthy (some ts) then some t else none),
                (if strTruthy limitQ then
                  some (if optGT (limitQ.bind jsParseInt) (some 0)
                    then (limitQ.bind jsParseInt).getD 0 else 20)
                 else none)⟩ := by
            simp [parseLogsInput, hid, parseLogsFilters, hg1, hg2, hf, ht,
              optGT_some_some, hlt, Except.map]
          rw [hc] at he
          cases he
      · rintro ⟨f2, t2, hf2, ht2, hlt⟩
        cases hf2
        cases ht2
        simp [parseLogsInput, hid, parseLogsFilters, hg1, hg2, hf, ht,
          optGT_some_some, hlt, Except.map]
      · rintro (h | h) <;> cases h

/-- C3, witness: valid id, no limit, from 2024-01-05 after to
2024-01-02 yields the from-after-to 400. -/
theorem from_to_ordering_witness :
    parseLogsInput (.str gidStr) (some "2024-01-05") (some "2024-01-02")
      none = .error (400, fromAfterToMsg) :=
  ((from_to_ordering (.str gidStr) gidStr "2024-01-05" "2024-01-02" none
    (by decide) trivial).1).mpr
    ⟨1704412800000, 1704153600000, by decide, by decide, by decide⟩

/-- C6: every entry of the log array of a 200 logs response comes from
a stored exercise record and carries exactly its description, its bare
integer duration, and its date rendered through toDateString; the entry
type has no identifier field. -/
theorem log_entries_formatted (store : Store) (idP : JSVal)
    (fromQ toQ limitQ : Option String) (u : String) (c : Nat)
    (i : String) (log : List LogEntry)
    (h : (getLogs store idP fromQ toQ limitQ).1
      = ⟨200, .logsOut u c i log⟩) :
    ∀ entry ∈ log, ∃ e ∈ store.exercises,
      entry = ⟨e.description, e.duration, toDateString e.date⟩ := by
  simp only [getLogs] at h
  split at h
  · simp at h
  · split at h
    · simp at h
    · split at h
      · simp at h
      · simp only [Resp.mk.injEq, RespBody.logsOut.injEq] at h
        obtain ⟨-, -, -, -, hlog⟩ := h
        intro entry hent
        rw [← hlog] at hent
        obtain ⟨e, he, hfe⟩ := List.mem_map.mp hent
        refine ⟨e, ?_, ?_⟩
        · exact (List.mem_filter.mp
            (mem_sortByDateDesc (mem_jsLimit he))).1
        · rw [← hfe]
          rfl

/-- C6, witness at a one-exercise store. -/
theorem log_entries_formatted_witness :
    ∃ e ∈ sampleStore.exercises,
      (⟨"swim", 45, "Tue Jan 02 2024"⟩ : LogEntry)
        = ⟨e.description, e.duration, toDateString e.date⟩ :=
  log_entries_formatted sampleStore (.str gidStr) none none none
    "bob" 1 gidStr [⟨"swim", 45, "Tue Jan 02 2024"⟩] (by decide)
    ⟨"swim", 45, "Tue Jan 02 2024"⟩ (by decide)

/-- C10: in every 200 response of the logs endpoint, the count field
equals the length of the log array, and that length is at least one
(an empty result is answered with a 404 instead). -/
theorem count_matches_log (store : Store) (idP : JSVal)
    (fromQ toQ limitQ : Option String) (u : String) (c : Nat)
    (i : String) (log : List LogEntry)
    (h : (getLogs store idP fromQ toQ limitQ).1
      = ⟨200, .logsOut u c i log⟩) :
    c = log.length ∧ 1 ≤ c := by
  simp only [getLogs] at h
  split at h
  · simp at h
  · split at h
    · simp at h
    · split at h
      next hne =>
        simp at h
      next hne =>
        simp only [Resp.mk.injEq, RespBody.logsOut.injEq] at h
        obtain ⟨-, -, hc, -, hlog⟩ := h
        refine ⟨by rw [← hc, ← hlog], ?_⟩
        rw [← hc, List.length_map]
        exact length_pos_of_not_isEmpty hne

/-- C10, witness at a one-exercise store. -/
theorem count_matches_log_witness :
    (1 : Nat) = [(⟨"swim", 45, "Tue Jan 02 2024"⟩ : LogEntry)].length
    ∧ 1 ≤ 1 :=
  count_matches_log sampleStore (.str gidStr) none none none
    "bob" 1 gidStr [⟨"swim", 45, "Tue Jan 02 2024"⟩] (by decide)

end ExerciseTracker
